import Mathlib

/-!
Verification development for the whiteboard object/transform engine of
`src/svg-reveal.js`.

The JavaScript source is shallowly embedded.  Numbers are modelled as exact
rationals (`ℚ`), i.e. the exact-real semantics of the numeric code.  The
external math routines whose results are irrational (`Math.cos`, `Math.sin`,
`Math.hypot`) and the text-measurement collaborator (`measureText`) are
abstracted as an explicit parameter record `Ext`; theorems that need a
property of these routines (e.g. the Pythagorean identity) state it as a
hypothesis.  In-place mutation from the source becomes explicit state
passing: functions that mutate an object or the document state return the
updated value.
-/

namespace Svgboard

/-- A 2-D point, the `{x, y}` records of the source (world coordinates). -/
structure Pt where
  x : ℚ
  y : ℚ
deriving DecidableEq, Repr

/-- `const clamp = (v, a, b) => Math.max(a, Math.min(b, v));` (source line 132). -/
def clamp (v a b : ℚ) : ℚ := max a (min b v)

/-- JavaScript `q || d` for a numeric `q`: `0` is the only falsy numeric value
that can arise here (`NaN`/`undefined` do not occur over exact rationals). -/
def orQ (q d : ℚ) : ℚ := if q = 0 then d else q

/-- The external real-valued math routines the engine calls.  `cos`/`sin` take
an angle in radians (an arbitrary rational approximation of the stored
angle), `hyp` is `Math.hypot`, and `textW text fontSize` is the width the
text-measurement collaborator (`measureText`, source lines 485–494) reports
for `text` at the given font size.  All are opaque to the engine: none of
the claims depends on their values beyond explicitly stated hypotheses. -/
structure Ext where
  cos : ℚ → ℚ
  sin : ℚ → ℚ
  hyp : ℚ → ℚ → ℚ
  textW : String → ℚ → ℚ

/-! ## Camera (source lines 215–234) -/

/-- Camera state: `state.zoom`, `state.panX`, `state.panY`. -/
structure Camera where
  zoom : ℚ
  panX : ℚ
  panY : ℚ
deriving DecidableEq, Repr

/-- `screenToWorld(sx, sy)` (source lines 215–217). -/
def screenToWorld (c : Camera) (sx sy : ℚ) : Pt :=
  ⟨(sx - c.panX) / c.zoom, (sy - c.panY) / c.zoom⟩

/-- `worldToScreen(wx, wy)` (source lines 218–220). -/
def worldToScreen (c : Camera) (wx wy : ℚ) : Pt :=
  ⟨wx * c.zoom + c.panX, wy * c.zoom + c.panY⟩

/-- `setZoomTo(newZoom, anchorSX, anchorSY)` (source lines 222–234): clamp the
new zoom to `[0.25, 6]`, read the world point under the screen anchor with
the old zoom, and re-solve the pan so that world point stays under the
anchor.  (The trailing `redrawAll()` is rendering only.) -/
def setZoomTo (c : Camera) (newZoom anchorSX anchorSY : ℚ) : Camera :=
  let z := clamp newZoom (1/4) 6
  let worldX := (anchorSX - c.panX) / c.zoom
  let worldY := (anchorSY - c.panY) / c.zoom
  { zoom := z, panX := anchorSX - worldX * z, panY := anchorSY - worldY * z }

/-! ## Object model (source lines 596–746) -/

/-- The drawable-object tagged union (discriminated by `obj.kind`).
`stroke`/`erase` hold a point list and width (`size`); `line`/`arrow` hold two
endpoints (the source also stores an unused `rot: 0` on them — rotation for
these kinds is baked into the endpoints by `rotateObject`, so the field is
dropped here); `rect`/`circle` hold two corners and an explicit rotation
angle; `text` holds the top-left anchor, content, font size and rotation. -/
inductive Obj where
  | stroke (color : String) (size : ℚ) (points : List Pt)
  | erase (size : ℚ) (points : List Pt)
  | line (color : String) (size : ℚ) (x1 y1 x2 y2 : ℚ)
  | arrow (color : String) (size : ℚ) (x1 y1 x2 y2 : ℚ)
  | rect (color : String) (size : ℚ) (x1 y1 x2 y2 : ℚ) (rot : ℚ)
  | circle (color : String) (size : ℚ) (x1 y1 x2 y2 : ℚ) (rot : ℚ)
  | text (x y : ℚ) (content : String) (color : String) (fontSize : ℚ) (rot : ℚ)
deriving DecidableEq, Repr

/-- Per-axis scaling about an anchor: the body of `scaleObjectXY` below its
clamping prologue (source lines 684–704), factored out verbatim.  This is
also exactly the operation §4.4 of the spec describes (per-axis factor
applied about the anchor), which makes the clamping behaviour of
`scaleObjectXY` expressible as a statement about its arguments. -/
def scaleAboutXY (o : Obj) (fx fy ax ay : ℚ) : Obj :=
  match o with
  | .text x y t c fs rot =>
      -- move position around anchor and scale font size (uniform-ish)
      let uni := max (1/5) ((|fx| + |fy|) / 2)
      .text (ax + (x - ax) * fx) (ay + (y - ay) * fy) t c (max 6 (fs * uni)) rot
  | .stroke c s pts =>
      .stroke c s (pts.map fun p => ⟨ax + (p.x - ax) * fx, ay + (p.y - ay) * fy⟩)
  | .erase s pts =>
      .erase s (pts.map fun p => ⟨ax + (p.x - ax) * fx, ay + (p.y - ay) * fy⟩)
  | .line c s x1 y1 x2 y2 =>
      .line c s (ax + (x1 - ax) * fx) (ay + (y1 - ay) * fy)
        (ax + (x2 - ax) * fx) (ay + (y2 - ay) * fy)
  | .arrow c s x1 y1 x2 y2 =>
      .arrow c s (ax + (x1 - ax) * fx) (ay + (y1 - ay) * fy)
        (ax + (x2 - ax) * fx) (ay + (y2 - ay) * fy)
  | .rect c s x1 y1 x2 y2 rot =>
      .rect c s (ax + (x1 - ax) * fx) (ay + (y1 - ay) * fy)
        (ax + (x2 - ax) * fx) (ay + (y2 - ay) * fy) rot
  | .circle c s x1 y1 x2 y2 rot =>
      .circle c s (ax + (x1 - ax) * fx) (ay + (y1 - ay) * fy)
        (ax + (x2 - ax) * fx) (ay + (y2 - ay) * fy) rot

/-- `scaleObjectXY(obj, fx, fy, ax, ay)` (source lines 676–705).  The two
`isFinite` guards never fire over exact rationals (every `ℚ` is finite), the
factors are clamped to `[-20, 20]`, and the clamped factors are applied per
axis about the anchor (`scaleAboutXY`). -/
def scaleObjectXY (o : Obj) (fx fy ax ay : ℚ) : Obj :=
  scaleAboutXY o (clamp fx (-20) 20) (clamp fy (-20) 20) ax ay

/-! ## C2: zoom anchor invariance -/

/-- C2: for every camera with positive zoom and every `setZoomTo(z, p)` call,
the world point under the screen anchor `p` is unchanged by the call, and
the new zoom lies in `[0.25, 6]`. -/
theorem zoomAt_anchor_invariant (c : Camera) (z sx sy : ℚ) (hz : 0 < c.zoom) :
    screenToWorld (setZoomTo c z sx sy) sx sy = screenToWorld c sx sy ∧
    1/4 ≤ (setZoomTo c z sx sy).zoom ∧ (setZoomTo c z sx sy).zoom ≤ 6 := by
  have hz4 : (1:ℚ)/4 ≤ clamp z (1/4) 6 := le_max_left _ _
  have hz6 : clamp z (1/4) 6 ≤ 6 := by
    apply max_le (by norm_num) (min_le_left _ _)
  have hzn : clamp z (1/4) 6 ≠ 0 := by positivity
  refine ⟨?_, hz4, hz6⟩
  simp only [screenToWorld, setZoomTo, Pt.mk.injEq]
  constructor <;> (field_simp; ring)

/-- Witness for `zoomAt_anchor_invariant` at a concrete camera and anchor. -/
theorem zoomAt_anchor_invariant_witness :
    (0:ℚ) < (Camera.mk 1 0 0).zoom ∧
    (screenToWorld (setZoomTo ⟨1, 0, 0⟩ 10 3 4) 3 4 = screenToWorld ⟨1, 0, 0⟩ 3 4 ∧
     1/4 ≤ (setZoomTo ⟨1, 0, 0⟩ 10 3 4).zoom ∧ (setZoomTo ⟨1, 0, 0⟩ 10 3 4).zoom ≤ 6) :=
  ⟨by norm_num, zoomAt_anchor_invariant ⟨1, 0, 0⟩ 10 3 4 (by norm_num)⟩

/-! ## C7: the rect scaling scenario -/

/-- C7 counterexample: scaling the rect with corners (0,0)-(100,50) by the
uniform factor 2 about its own centre (50,25) gives corners
(-50,-25)-(150,75) — e.g. new `x1 = 50 + (0-50)*2 = -50` — and not the
corners (-25,-25)-(125,75) the claim states. -/
theorem rect_scale_scenario_counterexample :
    scaleObjectXY (.rect "#111111" 5 0 0 100 50 0) 2 2 50 25 =
      .rect "#111111" 5 (-50) (-25) 150 75 0 ∧
    scaleObjectXY (.rect "#111111" 5 0 0 100 50 0) 2 2 50 25 ≠
      .rect "#111111" 5 (-25) (-25) 125 75 0 := by
  constructor <;> norm_num [scaleObjectXY, scaleAboutXY, clamp, min_def, max_def]

/-- C7 amended: scaling a rect with corners (0,0)-(100,50) by the uniform
factor 2 about its own bounding-box centre (50,25) yields new corners
(-50,-25)-(150,75). -/
theorem rect_scale_scenario :
    scaleObjectXY (.rect "#111111" 5 0 0 100 50 0) 2 2 50 25 =
      .rect "#111111" 5 (-50) (-25) 150 75 0 := by
  norm_num [scaleObjectXY, scaleAboutXY, clamp, min_def, max_def]

/-! ## Overlay reveal cursor (source lines 1626–1633) -/

/-- The cursor stored by `revealTo(step)`:
`const s = Math.max(-1, Math.min(svgNodes.length - 1, step));` for a
document with `n` revealable nodes. -/
def revealToCursor (n : ℕ) (step : ℤ) : ℤ := max (-1) (min ((n : ℤ) - 1) step)

/-- The visibility `revealTo(step)` assigns to node `i`:
`svgNodes[i].style.visibility = (i <= s) ? "visible" : "hidden"`. -/
def revealVisible (n : ℕ) (step : ℤ) (i : ℕ) : Bool := (i : ℤ) ≤ revealToCursor n step

/-- C10: for every node count and every integer step argument (arbitrarily
large or negative, as produced by the arrow-key handler's `step ± jump`),
`revealTo` clamps the stored cursor into `[-1, n-1]`, and node `i` is
visible iff `i` is at most the stored cursor. -/
theorem revealTo_clamps_cursor (n : ℕ) (step : ℤ) :
    -1 ≤ revealToCursor n step ∧ revealToCursor n step ≤ (n : ℤ) - 1 ∧
    ∀ i : ℕ, i < n → (revealVisible n step i = true ↔ (i : ℤ) ≤ revealToCursor n step) := by
  refine ⟨le_max_left _ _, max_le (by omega) (min_le_left _ _), ?_⟩
  intro i _
  simp [revealVisible]

/-- Witness for `revealTo_clamps_cursor`: 3 nodes, step request 100. -/
theorem revealTo_clamps_cursor_witness :
    -1 ≤ revealToCursor 3 100 ∧ revealToCursor 3 100 ≤ (3 : ℤ) - 1 ∧
    ∀ i : ℕ, i < 3 → (revealVisible 3 100 i = true ↔ (i : ℤ) ≤ revealToCursor 3 100) :=
  revealTo_clamps_cursor 3 100

/-! ## Document state and history manager (source lines 70–297) -/

/-- `state.svg`: the overlay (revealable vector document) state — source
text, rigid transform, view box, reveal cursor and node count. -/
structure SvgState where
  src : String
  x : ℚ
  y : ℚ
  scale : ℚ
  rot : ℚ
  viewBox : String
  step : ℤ
  total : ℕ
deriving DecidableEq, Repr

/-- The default overlay state
`{ src:"", x:0, y:0, scale:1, rot:0, viewBox:"", step:-1, total:0 }` that
`applySnapshot` substitutes when a snapshot carries no `svg` field
(source line 269). -/
def defaultSvg : SvgState := ⟨"", 0, 0, 1, 0, "", -1, 0⟩

/-- `state.bg`: background image reference (source bytes as a data URL in
`src`), natural pixel size, un-scaled top-left world position, scale and
rotation (source lines 100–108). -/
structure BgState where
  src : String
  natW : ℚ
  natH : ℚ
  x : ℚ
  y : ℚ
  scale : ℚ
  rot : ℚ
deriving DecidableEq, Repr

/-- The default background `{ src:"", natW:0, natH:0, x:0, y:0, scale:1, rot:0 }`. -/
def defaultBg : BgState := ⟨"", 0, 0, 0, 0, 1, 0⟩

/-- The record literal built by `snapshot()` (source lines 241–253).  Its
field list is `tool, color, size, zoom, panX, panY, title, bg, objects`: the
overlay state `state.svg` is NOT among them.  Because `applySnapshot`
nevertheless reads `snap.svg || default` (line 269), the `svg` field is
modelled as an `Option` that `snapshot` always leaves `none` (absent key). -/
structure Snap where
  tool : String
  color : String
  size : ℚ
  zoom : ℚ
  panX : ℚ
  panY : ℚ
  title : String
  svg : Option SvgState
  bg : BgState
  objects : List Obj
deriving DecidableEq, Repr

/-- The live document state (the `state` literal, source lines 71–121),
restricted to the serializable fields the history manager reads and writes.
The source's `state.undo`/`state.redo` arrays hold `JSON.stringify`-ed
snapshots; serialization is a deep copy of immutable data, so the stacks
are lists of `Snap` values with the list head being the array end (the
newest entry, where the source pushes and pops). -/
structure DocState where
  tool : String
  color : String
  size : ℚ
  zoom : ℚ
  panX : ℚ
  panY : ℚ
  title : String
  svg : SvgState
  bg : BgState
  objects : List Obj
  undoStack : List Snap
  redoStack : List Snap
  selectionIndex : ℤ
deriving DecidableEq, Repr

/-- `snapshot()` (source lines 241–253): copies the live fields into a fresh
record.  The source literal has no `svg` key, hence `svg := none`;
`bg: { ...state.bg }` and `objects: deepClone(state.objects)` are deep
copies of immutable data here. -/
def snapshot (s : DocState) : Snap :=
  { tool := s.tool, color := s.color, size := s.size, zoom := s.zoom,
    panX := s.panX, panY := s.panY, title := s.title, svg := none,
    bg := s.bg, objects := s.objects }

/-- JavaScript `s || d` for strings: the empty string is the falsy case. -/
def orStr (s d : String) : String := if s = "" then d else s

/-- `applySnapshot(snap)` (source lines 255–280): fully replaces the live
state from the snapshot, substituting defaults for JS-falsy fields
(`snap.tool || "pen"`, `snap.color || "#111111"`, `snap.size || 5`,
`Number(snap.zoom || 1)`, `snap.svg || {…}`, `snap.bg || {…}`), and clears
the selection.  `Number(snap.panX || 0)` and `snap.title || ""` are the
identity on every rational resp. string, since the fallback equals the
falsy value itself.  `snap.bg` and `snap.objects` are always present in a
`snapshot()` record, so their fallbacks (`{…default…}`, `[]`) never fire.
The DOM calls (`setActiveTool`, `setColor`, `setBrushSize`,
`applyBgTransform`, `redrawAll`) are rendering only.  The undo/redo stacks
are untouched. -/
def applySnapshot (s : DocState) (snap : Snap) : DocState :=
  { s with
    tool := orStr snap.tool "pen",
    color := orStr snap.color "#111111",
    size := orQ snap.size 5,
    zoom := orQ snap.zoom 1,
    panX := snap.panX,
    panY := snap.panY,
    title := snap.title,
    svg := snap.svg.getD defaultSvg,
    bg := snap.bg,
    objects := snap.objects,
    selectionIndex := -1 }

/-- `pushUndo()` (source lines 282–285): push the current snapshot onto the
undo stack; beyond 120 entries the oldest is dropped (`shift()`), i.e. with
the newest at the head, keep the first 120. -/
def pushUndo (s : DocState) : DocState :=
  { s with undoStack := (snapshot s :: s.undoStack).take 120 }

/-- `clearRedo()` (source line 286). -/
def clearRedo (s : DocState) : DocState := { s with redoStack := [] }

/-- `undo()` (source lines 288–292): no-op on an empty undo stack; otherwise
push the current snapshot onto the redo stack (uncapped `push`) and apply
the popped snapshot. -/
def undo (s : DocState) : DocState :=
  match s.undoStack with
  | [] => s
  | top :: rest =>
      applySnapshot { s with redoStack := snapshot s :: s.redoStack, undoStack := rest } top

/-- `redo()` (source lines 293–297): no-op on an empty redo stack; otherwise
push the current snapshot onto the undo stack (a plain `push`, without
`pushUndo`'s 120 cap) and apply the popped snapshot. -/
def redo (s : DocState) : DocState :=
  match s.redoStack with
  | [] => s
  | top :: rest =>
      applySnapshot { s with undoStack := snapshot s :: s.undoStack, redoStack := rest } top

/-- A mutating action in the source's discipline: `pushUndo(); clearRedo();`
exactly once, then a mutation of the live object list (every mutating
handler — draw gestures, transforms, delete, clear — follows this pattern;
whatever it also does to selection or gesture state does not feed back into
the object list). -/
def mutatingAction (f : List Obj → List Obj) (s : DocState) : DocState :=
  let s1 := clearRedo (pushUndo s)
  { s1 with objects := f s1.objects }

/-! ## C5: undo/redo round-trip of the object list -/

/-- C5: for every document state and every mutating action, `undo()` after
the action restores the pre-action object list, and `redo()` immediately
after that undo restores the post-action object list. -/
theorem undo_redo_objects_roundtrip (s : DocState) (f : List Obj → List Obj) :
    (undo (mutatingAction f s)).objects = s.objects ∧
    (redo (undo (mutatingAction f s))).objects = (mutatingAction f s).objects := by
  simp [mutatingAction, undo, redo, pushUndo, clearRedo, applySnapshot, snapshot,
    List.take_succ_cons]

/-! ## C4: undo/redo and the overlay: a code bug -/

/-- A concrete document whose overlay holds loaded source text, a
non-default transform and a reveal cursor. -/
def overlayExample : DocState :=
  { tool := "select", color := "#ff0000", size := 3, zoom := 1, panX := 0, panY := 0,
    title := "board", svg := ⟨"<svg>overlay</svg>", 10, 20, 2, 0, "0 0 400 400", 3, 7⟩,
    bg := ⟨"data:image/png;base64,AAAA", 640, 480, 0, 0, 1, 0⟩,
    objects := [], undoStack := [], redoStack := [], selectionIndex := -1 }

/-- C4 (code bug, evaluated at a failing input): `snapshot()` omits the
overlay state — the object literal at source lines 241–253 has no `svg`
key even though `applySnapshot` (line 269) reads `snap.svg`, and even
though the state struct and the board-persistence path treat `svg` as part
of the document.  Consequently undoing a mutating action resets the live
overlay to the empty default instead of restoring the pre-action overlay:
here a document with loaded overlay source ends with `svg = defaultSvg`.
(The background, by contrast, does round-trip: `bg`, including its source
bytes, is in the snapshot.) -/
theorem undo_loses_overlay_state :
    (snapshot overlayExample).svg = none ∧
    (undo (mutatingAction (fun objs => objs ++ [.line "#111111" 5 0 0 1 1]) overlayExample)).svg
      = defaultSvg ∧
    overlayExample.svg ≠ defaultSvg ∧
    (undo (mutatingAction (fun objs => objs ++ [.line "#111111" 5 0 0 1 1]) overlayExample)).bg
      = overlayExample.bg := by
  refine ⟨rfl, rfl, ?_, rfl⟩
  simp [overlayExample, defaultSvg]

/-! ## Selection scale gesture (source lines 1053–1088 and 1268–1344) -/

/-- `obj.rot || 0`: the stored rotation angle, 0 for kinds without the field. -/
def rotOf : Obj → ℚ
  | .rect _ _ _ _ _ _ rot => rot
  | .circle _ _ _ _ _ _ rot => rot
  | .text _ _ _ _ _ rot => rot
  | _ => 0

/-- The own-rotation test of the scale branch (source line 1275):
`(kind === "rect" || kind === "circle" || kind === "text") && (rot || 0)`. -/
def hasOwnRot (o : Obj) : Bool :=
  match o with
  | .rect _ _ _ _ _ _ rot => rot ≠ 0
  | .circle _ _ _ _ _ _ rot => rot ≠ 0
  | .text _ _ _ _ _ rot => rot ≠ 0
  | _ => false

/-- `textMetrics(obj)` (source lines 487–494): `(w, h)` with the width from
the external measurement collaborator and height `fontSize * 1.25`, after
the `obj.fontSize || 20` fallback. -/
def textMetrics (E : Ext) (content : String) (fontSize : ℚ) : ℚ × ℚ :=
  let fs := orQ fontSize 20
  (E.textW content fs, fs * (5/4))

/-- The scale-factor computation of the `selScale` pointer-move handler
(source lines 1286–1297, duplicated verbatim at lines 1326–1338 for the
axis-aligned branch): per-axis ratio of current to start anchor-relative
components, falling back to 1 when the start component is below 0.001 in
absolute value; when Shift is held, both factors are replaced by the
length ratio (`Math.hypot(...) || 1` is `orQ (E.hyp ..) 1`). -/
def selScaleFactors (E : Ext) (v0x v0y v1x v1y : ℚ) (shift : Bool) : ℚ × ℚ :=
  let fxRaw := if |v0x| < 1/1000 then 1 else v1x / v0x
  let fyRaw := if |v0y| < 1/1000 then 1 else v1y / v0y
  if shift then
    let l0 := orQ (E.hyp v0x v0y) 1
    let l1 := orQ (E.hyp v1x v1y) 1
    (l1 / l0, l1 / l0)
  else
    (fxRaw, fyRaw)

/-- One pointer-move of a `selScale` gesture (source lines 1268–1344), as
the pure function the handler computes.  Inputs: the pre-gesture snapshot
`obj0` (`gesture.selStartObj`), the anchor `(ax, ay)` (`gesture.selAnchor`,
the snapshot's bounds centre frozen by `beginSelectionTransform`), the
start pointer world position `(sx, sy)` (`gesture.startWorld`), the current
pointer world position `(wx, wy)` and the Shift modifier.  The handler
overwrites the live object with this value
(`state.objects[gesture.selIndex] = deepClone(obj0)` followed by the
branch-specific transform); it never reads the previous live object.  In
the own-rotation branch the anchor-relative vectors are first rotated into
the object's local frame by `cos(-rot)`/`sin(-rot)`; the final catch-all
arm is unreachable because `hasOwnRot` holds only for rect/circle/text. -/
def selScaleMove (E : Ext) (obj0 : Obj) (ax ay sx sy wx wy : ℚ) (shift : Bool) : Obj :=
  if hasOwnRot obj0 then
    let ang := rotOf obj0
    let c := E.cos (-ang)
    let s := E.sin (-ang)
    let v0x := (sx - ax) * c - (sy - ay) * s
    let v0y := (sx - ax) * s + (sy - ay) * c
    let v1x := (wx - ax) * c - (wy - ay) * s
    let v1y := (wx - ax) * s + (wy - ay) * c
    let f := selScaleFactors E v0x v0y v1x v1y shift
    match obj0 with
    | .text _ _ t col fs rot =>
        let uni := max (1/5) ((|f.1| + |f.2|) / 2)
        let m0 := textMetrics E t fs
        .text (ax - m0.1 / 2) (ay - m0.2 / 2) t col (max 6 (fs * uni)) rot
    | .rect col sz x1 y1 x2 y2 rot =>
        let w1 := max 1 (|x2 - x1| * f.1)
        let h1 := max 1 (|y2 - y1| * f.2)
        .rect col sz (ax - w1 / 2) (ay - h1 / 2) (ax + w1 / 2) (ay + h1 / 2) rot
    | .circle col sz x1 y1 x2 y2 rot =>
        let w1 := max 1 (|x2 - x1| * f.1)
        let h1 := max 1 (|y2 - y1| * f.2)
        .circle col sz (ax - w1 / 2) (ay - h1 / 2) (ax + w1 / 2) (ay + h1 / 2) rot
    | o => o
  else
    let f := selScaleFactors E (sx - ax) (sy - ay) (wx - ax) (wy - ay) shift
    scaleObjectXY obj0 f.1 f.2 ax ay

/-- The live object over a whole `selScale` drag: each pointer move
overwrites the live object with `selScaleMove` of the frozen gesture data
and that move's position, so the run is a left fold whose step ignores the
previous live value. -/
def selScaleRun (E : Ext) (obj0 : Obj) (ax ay sx sy : ℚ) (shift : Bool)
    (moves : List Pt) : Obj :=
  moves.foldl (fun _live m => selScaleMove E obj0 ax ay sx sy m.x m.y shift) obj0

/-- A fold whose step ignores the accumulator computes its value at the last
element. -/
theorem foldl_overwrite_last {α β : Type} (g : α → β) (init : β) :
    ∀ (l : List α) (h : l ≠ []), l.foldl (fun _ a => g a) init = g (l.getLast h) := by
  intro l
  induction l generalizing init with
  | nil => intro h; exact absurd rfl h
  | cons a t ih =>
      intro h
      cases t with
      | nil => rfl
      | cons b t2 =>
          rw [List.foldl_cons, ih (g a) (by simp)]
          exact congrArg g (List.getLast_cons (by simp)).symm

/-! ## C1: snapshot purity of the scale gesture -/

/-- C1: after any nonempty sequence of pointer moves of a single `selScale`
gesture, the live object equals the transform computed once from the
pre-gesture snapshot, the gesture anchor, the start pointer position and
the final pointer position alone; intermediate moves contribute nothing.
Holds for every object kind, every modifier state and every choice of the
external math routines. -/
theorem selScale_snapshot_purity (E : Ext) (obj0 : Obj) (ax ay sx sy : ℚ)
    (shift : Bool) (moves : List Pt) (h : moves ≠ []) :
    selScaleRun E obj0 ax ay sx sy shift moves =
      selScaleMove E obj0 ax ay sx sy (moves.getLast h).x (moves.getLast h).y shift :=
  foldl_overwrite_last (fun m : Pt => selScaleMove E obj0 ax ay sx sy m.x m.y shift)
    obj0 moves h

/-- A concrete instantiation of the external math routines, used by
witnesses whose statements do not depend on the routines' values. -/
def extWitness : Ext := ⟨fun _ => 1, fun _ => 0, fun _ _ => 0, fun _ _ => 10⟩

/-- Witness for `selScale_snapshot_purity`: a concrete line object and a
two-move drag. -/
theorem selScale_snapshot_purity_witness :
    ([(⟨3, 3⟩ : Pt), ⟨4, 5⟩] : List Pt) ≠ [] ∧
    selScaleRun extWitness (.line "#111111" 5 0 0 2 2) 1 1 2 2 false [⟨3, 3⟩, ⟨4, 5⟩] =
      selScaleMove extWitness (.line "#111111" 5 0 0 2 2) 1 1 2 2 4 5 false := by
  refine ⟨by simp, ?_⟩
  have h := selScale_snapshot_purity extWitness (.line "#111111" 5 0 0 2 2) 1 1 2 2
    false [⟨3, 3⟩, ⟨4, 5⟩] (by simp)
  simpa [List.getLast] using h

/-! ## C6: degenerate-geometry fallback and scale clamping -/

/-- One pointer-move of a `bgScale` gesture (source lines 1388–1410): the
factor is the length ratio of the current and start vectors from the
background image's centre (`Math.hypot(...) || 1` guards both lengths), the
stored scale becomes `clamp(bg0.scale * factor, 0.05, 10)`, and the
un-scaled top-left is re-derived so the centre stays fixed. -/
def bgScaleMove (E : Ext) (bg0 : BgState) (sx sy wx wy : ℚ) : BgState :=
  let cx0 := bg0.x + bg0.natW / 2
  let cy0 := bg0.y + bg0.natH / 2
  let l0 := orQ (E.hyp (sx - cx0) (sy - cy0)) 1
  let l1 := orQ (E.hyp (wx - cx0) (wy - cy0)) 1
  let factor := l1 / l0
  { bg0 with scale := clamp (bg0.scale * factor) (1/20) 10,
             x := cx0 - bg0.natW / 2, y := cy0 - bg0.natH / 2 }

/-- `Math.hypot` evaluated only on axis-aligned vectors, where it is exact:
`hypot(x, 0) = |x|`.  The off-axis arm is never consulted below. -/
def hypAxis : ℚ → ℚ → ℚ := fun x y => if y = 0 then |x| else 0

/-- External routines with the axis-exact hypotenuse, for concrete
evaluations that stay on an axis. -/
def extAxis : Ext := ⟨fun _ => 1, fun _ => 0, hypAxis, fun _ _ => 10⟩

/-- C6 counterexample: not every scale factor applied to an object is
clamped to [-20, 20].  Background image of natural size 2×2 with un-scaled
top-left (-1, -1) (centre (0, 0)) and live scale 1/20; one `bgScale`
pointer move from world (1, 0) to (100, 0).  The code computes
`l0 = hypot(1, 0) = 1`, `l1 = hypot(100, 0) = 100`, factor `100`, and
stores `clamp(1/20 * 100, 0.05, 10) = 5`: the background scale is
multiplied by `100 = 5 / (1/20)`, far outside [-20, 20] — this branch
clamps the resulting scale to [0.05, 10], never the factor. -/
theorem scale_factor_clamp_counterexample :
    (bgScaleMove extAxis ⟨"img", 2, 2, -1, -1, 1/20, 0⟩ 1 0 100 0).scale = 5 ∧
    (5 : ℚ) = (1/20) * 100 ∧ ¬((100 : ℚ) ≤ 20) := by
  norm_num [bgScaleMove, extAxis, hypAxis, orQ, clamp, min_def, max_def]

/-- C6 amended: in the axis-aligned selection-scale path the fallback and
clamp do hold — a start anchor-relative component below 0.001 in absolute
value yields per-axis factor exactly 1.0 (uniform modifier off; the ratio
is only ever formed with a denominator of at least 0.001, so no
NaN/Infinity), and `scaleObjectXY` applies its factors clamped to
[-20, 20].  The own-rotation selection branch and the background scale
apply their factor without the [-20, 20] clamp (the background instead
clamps the resulting scale to [0.05, 10]), per the counterexample. -/
theorem scale_degenerate_fallback_and_clamp (E : Ext) (v0x v0y v1x v1y : ℚ)
    (o : Obj) (fx fy ax ay : ℚ)
    (hx : |v0x| < 1/1000) (hy : |v0y| < 1/1000) :
    (selScaleFactors E v0x v0y v1x v1y false).1 = 1 ∧
    (selScaleFactors E v0x v0y v1x v1y false).2 = 1 ∧
    scaleObjectXY o fx fy ax ay =
      scaleAboutXY o (clamp fx (-20) 20) (clamp fy (-20) 20) ax ay ∧
    -20 ≤ clamp fx (-20) 20 ∧ clamp fx (-20) 20 ≤ 20 ∧
    -20 ≤ clamp fy (-20) 20 ∧ clamp fy (-20) 20 ≤ 20 := by
  refine ⟨by simp [selScaleFactors, hx]; intro h; linarith,
    by simp [selScaleFactors, hy]; intro h; linarith, rfl,
    le_max_left _ _, max_le (by norm_num) (min_le_left _ _),
    le_max_left _ _, max_le (by norm_num) (min_le_left _ _)⟩

/-- Witness for `scale_degenerate_fallback_and_clamp`: degenerate start
vector (0, 0), current vector (3, 4), a line object, factors 50 and -50. -/
theorem scale_degenerate_fallback_and_clamp_witness :
    |(0 : ℚ)| < 1/1000 ∧
    ((selScaleFactors extWitness 0 0 3 4 false).1 = 1 ∧
     (selScaleFactors extWitness 0 0 3 4 false).2 = 1 ∧
     scaleObjectXY (.line "#111111" 5 0 0 1 1) 50 (-50) 0 0 =
       scaleAboutXY (.line "#111111" 5 0 0 1 1)
         (clamp 50 (-20) 20) (clamp (-50) (-20) 20) 0 0 ∧
     -20 ≤ clamp (50 : ℚ) (-20) 20 ∧ clamp (50 : ℚ) (-20) 20 ≤ 20 ∧
     -20 ≤ clamp (-50 : ℚ) (-20) 20 ∧ clamp (-50 : ℚ) (-20) 20 ≤ 20) :=
  ⟨by norm_num,
   scale_degenerate_fallback_and_clamp extWitness 0 0 3 4
     (.line "#111111" 5 0 0 1 1) 50 (-50) 0 0 (by norm_num) (by norm_num)⟩

/-! ## Angle snapping (source lines 155–190) -/

/-- Angles are measured in degrees here: the source works in radians but all
its snap constants are degrees (`snapsDeg`, converted by `d * Math.PI/180`),
and scaling every angle by 180/π makes the arithmetic exact over `ℚ`.
`wrapDeg` is the exact-real value of `Math.atan2(Math.sin(a), Math.cos(a))`
expressed in degrees: the unique representative of `a` modulo 360 in the
half-open interval (-180, 180]. -/
def wrapDeg (a : ℚ) : ℚ := a - 360 * ⌈(a - 180) / 360⌉

/-- The fixed snap-angle set (source lines 156–161), in source order. -/
def snapsDeg : List ℚ :=
  [0, 30, 45, 60, 90, 120, 135, 150, -30, -45, -60, -90, -120, -135, -150, 180]

/-- `snapAngleRad` (source lines 155–175), in degrees: normalize the input,
then scan the snap set keeping the candidate with the smallest absolute
wrapped difference (`diff < bestDiff` is strict, so the earliest minimizer
wins).  The source's initial `bestDiff = Infinity` is modelled by a
sentinel exceeding every actual difference (each `|wrapDeg ..| ≤ 180`). -/
def snapAngleDeg (angle : ℚ) : ℚ :=
  let a := wrapDeg angle
  (snapsDeg.foldl
    (fun best s =>
      let diff := |wrapDeg (a - s)|
      if diff < best.2 then (s, diff) else best)
    (0, 1000000000)).1

/-- `snapEndpointToAngles(x1, y1, x2, y2)` (source lines 177–190) in polar
coordinates about `(x1, y1)`.  The source computes `len = hypot(dx, dy)`
and `ang = atan2(dy, dx)`, returns the endpoint unchanged when
`len < 0.0001`, and otherwise returns
`(x1 + cos(snapped)·len, y1 + sin(snapped)·len)` — the segment of the same
length in the snapped direction.  Representing the dragged segment by its
polar data `(len, ang)` (length, direction in degrees) makes the function
exact over `ℚ`. -/
def snapEndpointPolar (len ang : ℚ) : ℚ × ℚ :=
  if len < 1/10000 then (len, ang) else (len, snapAngleDeg ang)

theorem wrapDeg_le (a : ℚ) : wrapDeg a ≤ 180 := by
  have h : (a - 180) / 360 ≤ (⌈(a - 180) / 360⌉ : ℚ) := Int.le_ceil _
  unfold wrapDeg
  linarith

theorem neg_lt_wrapDeg (a : ℚ) : -180 < wrapDeg a := by
  have h : (⌈(a - 180) / 360⌉ : ℚ) < (a - 180) / 360 + 1 := Int.ceil_lt_add_one _
  unfold wrapDeg
  linarith

theorem abs_wrapDeg_le (a : ℚ) : |wrapDeg a| ≤ 180 :=
  abs_le.mpr ⟨le_of_lt (neg_lt_wrapDeg a), wrapDeg_le a⟩

/-- Evaluation rule for `wrapDeg`: exhibiting the winding number decides it. -/
theorem wrapDeg_eval (a v : ℚ) (k : ℤ) (h1 : a - 360 * k = v) (h2 : -180 < v)
    (h3 : v ≤ 180) : wrapDeg a = v := by
  unfold wrapDeg
  have hk : ⌈(a - 180) / 360⌉ = k := by
    rw [Int.ceil_eq_iff]
    constructor
    · rw [lt_div_iff₀ (by norm_num : (0:ℚ) < 360)]
      linarith
    · rw [div_le_iff₀ (by norm_num : (0:ℚ) < 360)]
      linarith
  rw [hk]
  linarith

theorem wrapDeg_add_int (a : ℚ) (k : ℤ) : wrapDeg (a + 360 * k) = wrapDeg a := by
  unfold wrapDeg
  have hdiv : (a + 360 * k - 180) / 360 = (a - 180) / 360 + k := by
    field_simp
    ring
  rw [hdiv, Int.ceil_add_int]
  push_cast
  ring

/-- Normalizing the minuend first does not change a wrapped difference. -/
theorem wrapDeg_sub_wrapDeg (a s : ℚ) : wrapDeg (wrapDeg a - s) = wrapDeg (a - s) := by
  have h : wrapDeg a - s = (a - s) + 360 * ((-⌈(a - 180) / 360⌉ : ℤ) : ℚ) := by
    unfold wrapDeg
    push_cast
    ring
  rw [h, wrapDeg_add_int]

/-- The best-so-far scan of `snapAngleRad`: the result is the initial pair or
an element of the list paired with its value, its value never exceeds the
initial one, and its value is a lower bound of `f` on the list. -/
theorem argmin_foldl (f : ℚ → ℚ) :
    ∀ (l : List ℚ) (b0 : ℚ × ℚ),
      ((l.foldl (fun best s => if f s < best.2 then (s, f s) else best) b0) = b0 ∨
        ((l.foldl (fun best s => if f s < best.2 then (s, f s) else best) b0).1 ∈ l ∧
         (l.foldl (fun best s => if f s < best.2 then (s, f s) else best) b0).2 =
           f (l.foldl (fun best s => if f s < best.2 then (s, f s) else best) b0).1)) ∧
      (l.foldl (fun best s => if f s < best.2 then (s, f s) else best) b0).2 ≤ b0.2 ∧
      ∀ s ∈ l, (l.foldl (fun best s => if f s < best.2 then (s, f s) else best) b0).2 ≤ f s := by
  intro l
  induction l with
  | nil => exact fun b0 => ⟨Or.inl rfl, le_refl _, fun s hs => absurd hs (List.not_mem_nil s)⟩
  | cons a t ih =>
      intro b0
      by_cases hfa : f a < b0.2
      · have key := ih (a, f a)
        refine ⟨?_, ?_, ?_⟩
        · rcases key.1 with heq | hmem
          · simp only [List.foldl_cons, if_pos hfa]
            rw [heq]
            exact Or.inr ⟨List.mem_cons_self a t, rfl⟩
          · simp only [List.foldl_cons, if_pos hfa]
            exact Or.inr ⟨List.mem_cons_of_mem a hmem.1, hmem.2⟩
        · simp only [List.foldl_cons, if_pos hfa]
          exact le_trans key.2.1 (le_of_lt hfa)
        · intro s hs
          simp only [List.foldl_cons, if_pos hfa]
          rcases List.mem_cons.mp hs with rfl | hst
          · exact key.2.1
          · exact key.2.2 s hst
      · have key := ih b0
        refine ⟨?_, ?_, ?_⟩
        · rcases key.1 with heq | hmem
          · simp only [List.foldl_cons, if_neg hfa]
            exact Or.inl heq
          · simp only [List.foldl_cons, if_neg hfa]
            exact Or.inr ⟨List.mem_cons_of_mem a hmem.1, hmem.2⟩
        · simp only [List.foldl_cons, if_neg hfa]
          exact key.2.1
        · intro s hs
          simp only [List.foldl_cons, if_neg hfa]
          rcases List.mem_cons.mp hs with rfl | hst
          · exact le_trans key.2.1 (not_lt.mp hfa)
          · exact key.2.2 s hst

/-- The snapped angle is an element of the snap set minimizing the absolute
wrapped distance to the raw angle. -/
theorem snapAngleDeg_mem_min (angle : ℚ) :
    snapAngleDeg angle ∈ snapsDeg ∧
    ∀ s ∈ snapsDeg, |wrapDeg (angle - snapAngleDeg angle)| ≤ |wrapDeg (angle - s)| := by
  have key := argmin_foldl (fun s => |wrapDeg (wrapDeg angle - s)|) snapsDeg (0, 1000000000)
  set r := snapsDeg.foldl
    (fun best s => if |wrapDeg (wrapDeg angle - s)| < best.2 then (s, |wrapDeg (wrapDeg angle - s)|) else best)
    ((0 : ℚ), (1000000000 : ℚ)) with hr
  have hzero : (0 : ℚ) ∈ snapsDeg := by norm_num [snapsDeg]
  have hbound : r.2 ≤ |wrapDeg (wrapDeg angle - 0)| := key.2.2 0 hzero
  have habs : |wrapDeg (wrapDeg angle - 0)| ≤ 180 := abs_wrapDeg_le _
  have habs2 : |wrapDeg (wrapDeg angle)| ≤ 180 := by simpa using habs
  have hne : ¬ r = ((0 : ℚ), (1000000000 : ℚ)) := by
    intro hcontra
    rw [hcontra] at hbound
    norm_num at hbound
    linarith
  have hmem : r.1 ∈ snapsDeg ∧ r.2 = |wrapDeg (wrapDeg angle - r.1)| := by
    rcases key.1 with heq | h
    · exact absurd heq hne
    · exact h
  have hfst : snapAngleDeg angle = r.1 := rfl
  constructor
  · rw [hfst]; exact hmem.1
  · intro s hs
    have hmin := key.2.2 s hs
    rw [hmem.2] at hmin
    rw [hfst]
    calc |wrapDeg (angle - r.1)| = |wrapDeg (wrapDeg angle - r.1)| := by
          rw [wrapDeg_sub_wrapDeg]
      _ ≤ |wrapDeg (wrapDeg angle - s)| := hmin
      _ = |wrapDeg (angle - s)| := by rw [wrapDeg_sub_wrapDeg]

/-- `snapAngleRad` at a raw direction of 44° returns exactly 45°. -/
theorem snapAngleDeg_at_44 : snapAngleDeg 44 = 45 := by
  have h : wrapDeg 44 = 44 := wrapDeg_eval _ _ 0 (by norm_num) (by norm_num) (by norm_num)
  have w0 : wrapDeg (44 - 0) = 44 := wrapDeg_eval _ _ 0 (by norm_num) (by norm_num) (by norm_num)
  have w1 : wrapDeg (44 - 30) = 14 := wrapDeg_eval _ _ 0 (by norm_num) (by norm_num) (by norm_num)
  have w2 : wrapDeg (44 - 45) = -1 := wrapDeg_eval _ _ 0 (by norm_num) (by norm_num) (by norm_num)
  have w3 : wrapDeg (44 - 60) = -16 := wrapDeg_eval _ _ 0 (by norm_num) (by norm_num) (by norm_num)
  have w4 : wrapDeg (44 - 90) = -46 := wrapDeg_eval _ _ 0 (by norm_num) (by norm_num) (by norm_num)
  have w5 : wrapDeg (44 - 120) = -76 := wrapDeg_eval _ _ 0 (by norm_num) (by norm_num) (by norm_num)
  have w6 : wrapDeg (44 - 135) = -91 := wrapDeg_eval _ _ 0 (by norm_num) (by norm_num) (by norm_num)
  have w7 : wrapDeg (44 - 150) = -106 := wrapDeg_eval _ _ 0 (by norm_num) (by norm_num) (by norm_num)
  have w8 : wrapDeg (44 - -30) = 74 := wrapDeg_eval _ _ 0 (by norm_num) (by norm_num) (by norm_num)
  have w9 : wrapDeg (44 - -45) = 89 := wrapDeg_eval _ _ 0 (by norm_num) (by norm_num) (by norm_num)
  have w10 : wrapDeg (44 - -60) = 104 := wrapDeg_eval _ _ 0 (by norm_num) (by norm_num) (by norm_num)
  have w11 : wrapDeg (44 - -90) = 134 := wrapDeg_eval _ _ 0 (by norm_num) (by norm_num) (by norm_num)
  have w12 : wrapDeg (44 - -120) = 164 := wrapDeg_eval _ _ 0 (by norm_num) (by norm_num) (by norm_num)
  have w13 : wrapDeg (44 - -135) = 179 := wrapDeg_eval _ _ 0 (by norm_num) (by norm_num) (by norm_num)
  have w14 : wrapDeg (44 - -150) = -166 := wrapDeg_eval _ _ 1 (by norm_num) (by norm_num) (by norm_num)
  have w15 : wrapDeg (44 - 180) = -136 := wrapDeg_eval _ _ 0 (by norm_num) (by norm_num) (by norm_num)
  simp only [snapAngleDeg, snapsDeg, List.foldl, h, w0, w1, w2, w3, w4, w5, w6, w7, w8,
    w9, w10, w11, w12, w13, w14, w15]
  norm_num

/-- `snapAngleRad` at a raw direction of 91° returns exactly 90°. -/
theorem snapAngleDeg_at_91 : snapAngleDeg 91 = 90 := by
  have h : wrapDeg 91 = 91 := wrapDeg_eval _ _ 0 (by norm_num) (by norm_num) (by norm_num)
  have w0 : wrapDeg (91 - 0) = 91 := wrapDeg_eval _ _ 0 (by norm_num) (by norm_num) (by norm_num)
  have w1 : wrapDeg (91 - 30) = 61 := wrapDeg_eval _ _ 0 (by norm_num) (by norm_num) (by norm_num)
  have w2 : wrapDeg (91 - 45) = 46 := wrapDeg_eval _ _ 0 (by norm_num) (by norm_num) (by norm_num)
  have w3 : wrapDeg (91 - 60) = 31 := wrapDeg_eval _ _ 0 (by norm_num) (by norm_num) (by norm_num)
  have w4 : wrapDeg (91 - 90) = 1 := wrapDeg_eval _ _ 0 (by norm_num) (by norm_num) (by norm_num)
  have w5 : wrapDeg (91 - 120) = -29 := wrapDeg_eval _ _ 0 (by norm_num) (by norm_num) (by norm_num)
  have w6 : wrapDeg (91 - 135) = -44 := wrapDeg_eval _ _ 0 (by norm_num) (by norm_num) (by norm_num)
  have w7 : wrapDeg (91 - 150) = -59 := wrapDeg_eval _ _ 0 (by norm_num) (by norm_num) (by norm_num)
  have w8 : wrapDeg (91 - -30) = 121 := wrapDeg_eval _ _ 0 (by norm_num) (by norm_num) (by norm_num)
  have w9 : wrapDeg (91 - -45) = 136 := wrapDeg_eval _ _ 0 (by norm_num) (by norm_num) (by norm_num)
  have w10 : wrapDeg (91 - -60) = 151 := wrapDeg_eval _ _ 0 (by norm_num) (by norm_num) (by norm_num)
  have w11 : wrapDeg (91 - -90) = -179 := wrapDeg_eval _ _ 1 (by norm_num) (by norm_num) (by norm_num)
  have w12 : wrapDeg (91 - -120) = -149 := wrapDeg_eval _ _ 1 (by norm_num) (by norm_num) (by norm_num)
  have w13 : wrapDeg (91 - -135) = -134 := wrapDeg_eval _ _ 1 (by norm_num) (by norm_num) (by norm_num)
  have w14 : wrapDeg (91 - -150) = -119 := wrapDeg_eval _ _ 1 (by norm_num) (by norm_num) (by norm_num)
  have w15 : wrapDeg (91 - 180) = -89 := wrapDeg_eval _ _ 0 (by norm_num) (by norm_num) (by norm_num)
  simp only [snapAngleDeg, snapsDeg, List.foldl, h, w0, w1, w2, w3, w4, w5, w6, w7, w8,
    w9, w10, w11, w12, w13, w14, w15]
  norm_num

/-! ## C8: angle snap for line/arrow drawing -/

/-- C8 counterexample: a dragged segment of nonzero length 1/20000
(below the 0.0001 guard) at raw direction 53° is left entirely unsnapped
by `snapEndpointToAngles`, so its stored direction, 53°, is not in the
snap set even though the segment length is nonzero — the claim's
"nonzero current segment length" premise is not sufficient. -/
theorem angle_snap_counterexample :
    snapEndpointPolar (1/20000) 53 = (1/20000, 53) ∧ (1/20000 : ℚ) ≠ 0 ∧
    (53 : ℚ) ∉ snapsDeg := by
  refine ⟨by norm_num [snapEndpointPolar], by norm_num, by norm_num [snapsDeg]⟩

/-- C8 amended: for every in-progress line or arrow whose current segment
length is at least 0.0001 (shorter segments, even nonzero ones, are left
unsnapped), while the snap modifier is held a pointer move stores the
direction `snapAngleDeg raw`, an element of the fixed snap set closest in
absolute angular distance to the raw drag direction, and preserves the
segment length; in particular a raw direction of 44° snaps to exactly 45°
and 91° snaps to 90°. -/
theorem angle_snap_direction (len ang : ℚ) (h : 1/10000 ≤ len) :
    (snapEndpointPolar len ang).1 = len ∧
    (snapEndpointPolar len ang).2 = snapAngleDeg ang ∧
    snapAngleDeg ang ∈ snapsDeg ∧
    (∀ s ∈ snapsDeg, |wrapDeg (ang - snapAngleDeg ang)| ≤ |wrapDeg (ang - s)|) ∧
    snapAngleDeg 44 = 45 ∧ snapAngleDeg 91 = 90 := by
  have hnot : ¬ len < 1/10000 := not_lt.mpr h
  have heval : snapEndpointPolar len ang = (len, snapAngleDeg ang) := by
    unfold snapEndpointPolar
    rw [if_neg hnot]
  exact ⟨by rw [heval], by rw [heval],
    (snapAngleDeg_mem_min ang).1, (snapAngleDeg_mem_min ang).2,
    snapAngleDeg_at_44, snapAngleDeg_at_91⟩

/-- Witness for `angle_snap_direction`: a segment of length 5 at raw
direction 44°. -/
theorem angle_snap_direction_witness :
    (1/10000 : ℚ) ≤ 5 ∧
    ((snapEndpointPolar 5 44).1 = 5 ∧
     (snapEndpointPolar 5 44).2 = snapAngleDeg 44 ∧
     snapAngleDeg 44 ∈ snapsDeg ∧
     (∀ s ∈ snapsDeg, |wrapDeg (44 - snapAngleDeg 44)| ≤ |wrapDeg (44 - s)|) ∧
     snapAngleDeg 44 = 45 ∧ snapAngleDeg 91 = 90) :=
  ⟨by norm_num, angle_snap_direction 5 44 (by norm_num)⟩

/-! ## Hit testing (source lines 596–658) -/

/-- Squared point-to-segment distance.  `distToSeg` (source lines 596–604)
returns `Math.hypot(px - cx, py - cy)` for the closest segment point
`(cx, cy)` (degenerate segments measure to the endpoint; the interpolation
parameter is clamped to [0, 1]).  The hit test only compares this distance
against a nonnegative tolerance, and `hypot(a, b) ≤ tol ↔ a² + b² ≤ tol²`,
so the squared distance is the exact-rational carrier of the comparison. -/
def distToSegSq (px py x1 y1 x2 y2 : ℚ) : ℚ :=
  let dx := x2 - x1
  let dy := y2 - y1
  if dx = 0 ∧ dy = 0 then (px - x1) ^ 2 + (py - y1) ^ 2
  else
    let t := ((px - x1) * dx + (py - y1) * dy) / (dx * dx + dy * dy)
    let tt := clamp t 0 1
    let cx := x1 + tt * dx
    let cy := y1 + tt * dy
    (px - cx) ^ 2 + (py - cy) ^ 2

/-- The `text` branch of `objectBounds` (source lines 499–524): axis-aligned
bounds of the text box rotated about its centre, as
`(minX, minY, maxX, maxY)`.  (Only this branch of `objectBounds` is
reachable from `hitObject`.) -/
def textBounds (E : Ext) (x y : ℚ) (content : String) (fontSize rot : ℚ) :
    ℚ × ℚ × ℚ × ℚ :=
  let m := textMetrics E content fontSize
  let w := m.1
  let h := m.2
  let cx := x + w / 2
  let cy := y + h / 2
  let c := E.cos rot
  let s := E.sin rot
  let q1 : Pt := ⟨cx + (-(w/2)) * c - (-(h/2)) * s, cy + (-(w/2)) * s + (-(h/2)) * c⟩
  let q2 : Pt := ⟨cx + (w/2) * c - (-(h/2)) * s, cy + (w/2) * s + (-(h/2)) * c⟩
  let q3 : Pt := ⟨cx + (w/2) * c - (h/2) * s, cy + (w/2) * s + (h/2) * c⟩
  let q4 : Pt := ⟨cx + (-(w/2)) * c - (h/2) * s, cy + (-(w/2)) * s + (h/2) * c⟩
  (min (min q1.x q2.x) (min q3.x q4.x), min (min q1.y q2.y) (min q3.y q4.y),
   max (max q1.x q2.x) (max q3.x q4.x), max (max q1.y q2.y) (max q3.y q4.y))

/-- The `size` field read by `obj.size || 4`: `text` objects carry no `size`
(an absent field is falsy like 0, so the fallback applies either way). -/
def sizeField : Obj → ℚ
  | .stroke _ s _ => s
  | .erase s _ => s
  | .line _ s _ _ _ _ => s
  | .arrow _ s _ _ _ _ => s
  | .rect _ s _ _ _ _ _ => s
  | .circle _ s _ _ _ _ _ => s
  | .text _ _ _ _ _ _ => 0

/-- `hitObject(obj, wx, wy)` (source lines 606–658) with tolerance
`tol = max(8, (obj.size || 4) * 1.5)`.  Distance comparisons
`distToSeg(..) <= tol` are carried as `distToSegSq ≤ tol²` (`tol ≥ 8 > 0`);
the circle branch's normalized radial test is already squared in the
source, and rect/circle first rotate the query point into the object's
local frame with `cos(-rot)`/`sin(-rot)`. -/
def hitObject (E : Ext) (o : Obj) (wx wy : ℚ) : Bool :=
  let tol := max 8 (orQ (sizeField o) 4 * (3/2))
  match o with
  | .text x y t _ fs rot =>
      let b := textBounds E x y t fs rot
      decide (b.1 ≤ wx) && decide (wx ≤ b.2.2.1) &&
      decide (b.2.1 ≤ wy) && decide (wy ≤ b.2.2.2)
  | .stroke _ _ pts =>
      (pts.zip pts.tail).any fun pq =>
        decide (distToSegSq wx wy pq.1.x pq.1.y pq.2.x pq.2.y ≤ tol ^ 2)
  | .erase _ pts =>
      (pts.zip pts.tail).any fun pq =>
        decide (distToSegSq wx wy pq.1.x pq.1.y pq.2.x pq.2.y ≤ tol ^ 2)
  | .line _ _ x1 y1 x2 y2 => decide (distToSegSq wx wy x1 y1 x2 y2 ≤ tol ^ 2)
  | .arrow _ _ x1 y1 x2 y2 => decide (distToSegSq wx wy x1 y1 x2 y2 ≤ tol ^ 2)
  | .rect _ _ x1 y1 x2 y2 rot =>
      let cx := (x1 + x2) / 2
      let cy := (y1 + y2) / 2
      let rw := |x2 - x1|
      let rh := |y2 - y1|
      let c := E.cos (-rot)
      let s := E.sin (-rot)
      let lx := (wx - cx) * c - (wy - cy) * s
      let ly := (wx - cx) * s + (wy - cy) * c
      decide (|lx| ≤ rw / 2) && decide (|ly| ≤ rh / 2)
  | .circle _ _ x1 y1 x2 y2 rot =>
      let cx := (x1 + x2) / 2
      let cy := (y1 + y2) / 2
      let rx := |x2 - x1| / 2
      let ry := |y2 - y1| / 2
      if rx < 1 ∨ ry < 1 then false
      else
        let c := E.cos (-rot)
        let s := E.sin (-rot)
        let lx := (wx - cx) * c - (wy - cy) * s
        let ly := (wx - cx) * s + (wy - cy) * c
        let nx := lx / rx
        let ny := ly / ry
        decide (nx * nx + ny * ny ≤ 6/5)

/-- The segments a segment-based object is hit-tested against: consecutive
point pairs for stroke/erase, the single segment for line/arrow. -/
def segsOf : Obj → List (Pt × Pt)
  | .stroke _ _ pts => pts.zip pts.tail
  | .erase _ pts => pts.zip pts.tail
  | .line _ _ x1 y1 x2 y2 => [(⟨x1, y1⟩, ⟨x2, y2⟩)]
  | .arrow _ _ x1 y1 x2 y2 => [(⟨x1, y1⟩, ⟨x2, y2⟩)]
  | _ => []

/-- The four segment-based object kinds of claim C9. -/
def isSegKind : Obj → Bool
  | .stroke _ _ _ => true
  | .erase _ _ => true
  | .line _ _ _ _ _ _ => true
  | .arrow _ _ _ _ _ _ => true
  | _ => false

theorem distToSegSq_nonneg (px py x1 y1 x2 y2 : ℚ) :
    0 ≤ distToSegSq px py x1 y1 x2 y2 := by
  simp only [distToSegSq]
  split <;> positivity

/-- For nonnegative `d` and `t`, the real comparison `√d ≤ t` is the squared
comparison `d ≤ t²`. -/
theorem sqrt_le_iff_sq (d t : ℚ) (_hd : 0 ≤ d) (ht : 0 ≤ t) :
    Real.sqrt (d : ℝ) ≤ (t : ℝ) ↔ d ≤ t ^ 2 := by
  rw [show ((t : ℝ)) = Real.sqrt ((t : ℝ) ^ 2) by
        rw [Real.sqrt_sq (by exact_mod_cast ht)],
      Real.sqrt_le_sqrt_iff (by positivity)]
  constructor
  · intro hle
    exact_mod_cast hle
  · intro hle
    exact_mod_cast hle

/-! ## C9: hit-test boundary for segment-based objects -/

/-- C9: for every stroke, erase, line or arrow object, with tolerance
`tol = max(8, width·1.5)`, `hitObject` returns true exactly when the real
point-to-segment distance to some segment of the object is at most `tol`:
a point at distance exactly `tol` (or less) from some segment is hit, and
a point farther than `tol` from every segment is not. -/
theorem hitObject_segment_boundary (E : Ext) (o : Obj) (wx wy : ℚ)
    (h : isSegKind o = true) :
    hitObject E o wx wy = true ↔
      ∃ pq ∈ segsOf o,
        Real.sqrt ((distToSegSq wx wy pq.1.x pq.1.y pq.2.x pq.2.y : ℚ) : ℝ)
          ≤ ((max 8 (orQ (sizeField o) 4 * (3/2)) : ℚ) : ℝ) := by
  have ht : (0 : ℚ) ≤ max 8 (orQ (sizeField o) 4 * (3/2)) :=
    le_trans (by norm_num) (le_max_left _ _)
  have key : ∀ pq : Pt × Pt,
      (distToSegSq wx wy pq.1.x pq.1.y pq.2.x pq.2.y
          ≤ (max 8 (orQ (sizeField o) 4 * (3/2))) ^ 2) ↔
        (Real.sqrt ((distToSegSq wx wy pq.1.x pq.1.y pq.2.x pq.2.y : ℚ) : ℝ)
          ≤ ((max 8 (orQ (sizeField o) 4 * (3/2)) : ℚ) : ℝ)) :=
    fun pq => (sqrt_le_iff_sq _ _ (distToSegSq_nonneg _ _ _ _ _ _) ht).symm
  cases o with
  | stroke c s pts =>
      simp only [hitObject, segsOf, List.any_eq_true, decide_eq_true_eq]
      constructor
      · rintro ⟨pq, hmem, hle⟩
        exact ⟨pq, hmem, (key pq).mp hle⟩
      · rintro ⟨pq, hmem, hle⟩
        exact ⟨pq, hmem, (key pq).mpr hle⟩
  | erase s pts =>
      simp only [hitObject, segsOf, List.any_eq_true, decide_eq_true_eq]
      constructor
      · rintro ⟨pq, hmem, hle⟩
        exact ⟨pq, hmem, (key pq).mp hle⟩
      · rintro ⟨pq, hmem, hle⟩
        exact ⟨pq, hmem, (key pq).mpr hle⟩
  | line c s x1 y1 x2 y2 =>
      simp only [hitObject, segsOf, decide_eq_true_eq, List.mem_singleton]
      constructor
      · intro hle
        exact ⟨(⟨x1, y1⟩, ⟨x2, y2⟩), rfl, (key _).mp hle⟩
      · rintro ⟨pq, rfl, hle⟩
        exact (key _).mpr hle
  | arrow c s x1 y1 x2 y2 =>
      simp only [hitObject, segsOf, decide_eq_true_eq, List.mem_singleton]
      constructor
      · intro hle
        exact ⟨(⟨x1, y1⟩, ⟨x2, y2⟩), rfl, (key _).mp hle⟩
      · rintro ⟨pq, rfl, hle⟩
        exact (key _).mpr hle
  | rect c s x1 y1 x2 y2 rot => simp [isSegKind] at h
  | circle c s x1 y1 x2 y2 rot => simp [isSegKind] at h
  | text x y t c fs rot => simp [isSegKind] at h

/-- Witness for `hitObject_segment_boundary`: a stroke of width 4
(tolerance `max(8, 6) = 8`) with one horizontal segment, queried at a
point exactly 8 below the segment midpoint. -/
theorem hitObject_segment_boundary_witness :
    isSegKind (.stroke "#111111" 4 [⟨0, 0⟩, ⟨10, 0⟩]) = true ∧
    (hitObject extWitness (.stroke "#111111" 4 [⟨0, 0⟩, ⟨10, 0⟩]) 5 8 = true ↔
      ∃ pq ∈ segsOf (.stroke "#111111" 4 [⟨0, 0⟩, ⟨10, 0⟩]),
        Real.sqrt ((distToSegSq 5 8 pq.1.x pq.1.y pq.2.x pq.2.y : ℚ) : ℝ)
          ≤ ((max 8 (orQ (sizeField (.stroke "#111111" 4 [⟨0, 0⟩, ⟨10, 0⟩])) 4 * (3/2)) : ℚ) : ℝ)) :=
  ⟨rfl, hitObject_segment_boundary extWitness (.stroke "#111111" 4 [⟨0, 0⟩, ⟨10, 0⟩]) 5 8 rfl⟩

/-! ## Vector export: erase masking (source lines 1881–2009) -/

/-- A markup item: the element `exportSVG` appends to `currentLayer` for one
non-erase object (a `<path>`, `<text>`, `<line>`, arrow `<path>`, `<rect>`
or `<ellipse>`), tagged with the index of the object in `state.objects` so
its provenance is visible to the theorems (the source identifies it only by
its position inside the concatenated markup string). -/
structure Item where
  idx : ℕ
  obj : Obj
deriving DecidableEq, Repr

/-- The exported ink markup.  In the source, `pastLayer` is always either
empty or one `<g mask="url(#mi)">…</g>` group, and `currentLayer` is a
concatenation of items; this type is exactly that pair: `base items` is a
bare `currentLayer`, and `wrap i pts w inner items` is the mask group
created for the erase object at index `i` (mask shape: its path `pts`
stroked at width `w`) wrapping `inner`, followed by the `currentLayer`
accumulated since that erase. -/
inductive Markup where
  | base (items : List Item)
  | wrap (eraseIdx : ℕ) (pts : List Pt) (w : ℚ) (inner : Markup) (items : List Item)
deriving DecidableEq, Repr

/-- Does a non-erase object emit markup?  `pathFromPoints` (source lines
1881–1888) yields the empty string for fewer than two points and the
stroke branch then skips (`if (!d) continue`); every other non-erase kind
always emits.  `erase` objects emit no item — they build masks. -/
def renders : Obj → Bool
  | .stroke _ _ pts => decide (2 ≤ pts.length)
  | .erase _ _ => false
  | _ => true

/-- `currentLayer += …`: append one item to the run in progress. -/
def appendItem (m : Markup) (it : Item) : Markup :=
  match m with
  | .base items => .base (items ++ [it])
  | .wrap i pts w inner items => .wrap i pts w inner (items ++ [it])

/-- `wrapWithEraseMask(erasePathD, eraseSize)` (source lines 1929–1943):
emit a fresh mask whose shape is the erase path stroked at width
`Math.max(1, eraseSize || 20)`, wrap the combination
`pastLayer + currentLayer` in a group under that mask, and reset
`currentLayer`.  The mask is tagged with the erase object's index `k`
(the source numbers its masks `m1, m2, …` in the same order, one per erase
with a nonempty path). -/
def wrapWithEraseMask (k : ℕ) (pts : List Pt) (size : ℚ) (m : Markup) : Markup :=
  .wrap k pts (max 1 (orQ size 20)) m []

/-- One step of the `exportSVG` object loop (source lines 1945–2007) on the
`(pastLayer, currentLayer)` state: an erase with a nonempty path wraps all
accumulated markup; a rendering non-erase object is appended to the
current run; anything else leaves the state unchanged. -/
def exportStep (m : Markup) (k : ℕ) (o : Obj) : Markup :=
  match o with
  | .erase size pts => if 2 ≤ pts.length then wrapWithEraseMask k pts size m else m
  | o' => if renders o' then appendItem m ⟨k, o'⟩ else m

/-- The full `exportSVG` object loop over the indexed object list, starting
from empty layers.  The exported ink markup `pastLayer + currentLayer` is
the resulting `Markup` value. -/
def exportInk (objs : List Obj) : Markup :=
  objs.enum.foldl (fun m ko => exportStep m ko.1 ko.2) (.base [])

/-- Does the markup contain the item of object index `j` anywhere,
inside or outside mask groups? -/
def containsItem : Markup → ℕ → Bool
  | .base items, j => items.any fun it => it.idx == j
  | .wrap _ _ _ inner items, j => containsItem inner j || items.any fun it => it.idx == j

/-- Does the markup contain a mask group tagged with erase index `i`? -/
def hasMask : Markup → ℕ → Bool
  | .base _, _ => false
  | .wrap k _ _ inner _, i => k == i || hasMask inner i

/-- Is the item of object index `j` a descendant of the mask group of erase
index `i`? -/
def underMask : Markup → ℕ → ℕ → Bool
  | .base _, _, _ => false
  | .wrap k _ _ inner _, i, j => (k == i && containsItem inner j) || underMask inner i j

/-- Object `j` of the list produces markup in the export. -/
def rendersAt (objs : List Obj) (j : ℕ) : Prop :=
  ∃ o, objs.get? j = some o ∧ renders o = true

/-- Object `i` of the list is an erase stroke with a nonempty path. -/
def eraseAt (objs : List Obj) (i : ℕ) : Prop :=
  ∃ sz pts, objs.get? i = some (.erase sz pts) ∧ 2 ≤ pts.length

theorem rendersAt_lt (objs : List Obj) (j : ℕ) (h : rendersAt objs j) :
    j < objs.length := by
  obtain ⟨o, ho, -⟩ := h
  exact (List.get?_eq_some.mp ho).1

theorem eraseAt_lt (objs : List Obj) (i : ℕ) (h : eraseAt objs i) :
    i < objs.length := by
  obtain ⟨sz, pts, ho, -⟩ := h
  exact (List.get?_eq_some.mp ho).1

theorem rendersAt_of (objs : List Obj) (k : ℕ) (o : Obj)
    (hk : objs.get? k = some o) : rendersAt objs k ↔ renders o = true := by
  constructor
  · rintro ⟨o', ho', hr⟩
    rw [hk] at ho'
    obtain rfl := Option.some.inj ho'
    exact hr
  · intro hr
    exact ⟨o, hk, hr⟩

theorem eraseAt_of (objs : List Obj) (k : ℕ) (o : Obj)
    (hk : objs.get? k = some o) :
    eraseAt objs k ↔ ∃ sz pts, o = .erase sz pts ∧ 2 ≤ pts.length := by
  constructor
  · rintro ⟨sz, pts, ho, hl⟩
    rw [hk] at ho
    exact ⟨sz, pts, Option.some.inj ho, hl⟩
  · rintro ⟨sz, pts, rfl, hl⟩
    exact ⟨sz, pts, hk, hl⟩

theorem containsItem_appendItem (m : Markup) (it : Item) (j : ℕ) :
    containsItem (appendItem m it) j = (containsItem m j || (it.idx == j)) := by
  cases m <;> simp [appendItem, containsItem, Bool.or_assoc]

theorem hasMask_appendItem (m : Markup) (it : Item) (i : ℕ) :
    hasMask (appendItem m it) i = hasMask m i := by
  cases m <;> simp [appendItem, hasMask]

theorem underMask_appendItem (m : Markup) (it : Item) (i j : ℕ) :
    underMask (appendItem m it) i j = underMask m i j := by
  cases m <;> simp [appendItem, underMask]

/-- The invariant of the export loop after consuming the first `k` objects:
the accumulated markup holds exactly the items of rendering objects with
index below `k`, exactly the masks of path-bearing erases below `k`, and an
item lies under a mask iff its object precedes that erase. -/
def ExportInv (objs : List Obj) (k : ℕ) (m : Markup) : Prop :=
  (∀ j, containsItem m j = true ↔ (j < k ∧ rendersAt objs j)) ∧
  (∀ i, hasMask m i = true ↔ (i < k ∧ eraseAt objs i)) ∧
  (∀ i j, underMask m i j = true ↔
    (i < k ∧ eraseAt objs i ∧ j < i ∧ rendersAt objs j))

/-- Extending the invariant over a non-erase object, whose `exportStep`
reduces to the conditional append. -/
theorem exportInv_step_nonerase (objs : List Obj) (k : ℕ) (m : Markup) (o : Obj)
    (hk : objs.get? k = some o)
    (invC : ∀ j, containsItem m j = true ↔ (j < k ∧ rendersAt objs j))
    (invM : ∀ i, hasMask m i = true ↔ (i < k ∧ eraseAt objs i))
    (invU : ∀ i j, underMask m i j = true ↔
      (i < k ∧ eraseAt objs i ∧ j < i ∧ rendersAt objs j))
    (hneE : ¬ eraseAt objs k)
    (hstep : exportStep m k o = if renders o then appendItem m ⟨k, o⟩ else m) :
    ExportInv objs (k + 1) (exportStep m k o) := by
  rw [hstep]
  by_cases hr : renders o = true
  · rw [if_pos hr]
    have hrA : rendersAt objs k := ⟨o, hk, hr⟩
    refine ⟨?_, ?_, ?_⟩
    · intro j
      rw [containsItem_appendItem]
      simp only [Bool.or_eq_true, beq_iff_eq]
      rw [invC j]
      constructor
      · rintro (⟨hj, hrj⟩ | rfl)
        · exact ⟨Nat.lt_succ_of_lt hj, hrj⟩
        · exact ⟨Nat.lt_succ_self k, hrA⟩
      · rintro ⟨hj, hrj⟩
        rcases Nat.lt_succ_iff_lt_or_eq.mp hj with hj' | rfl
        · exact Or.inl ⟨hj', hrj⟩
        · exact Or.inr rfl
    · intro i
      rw [hasMask_appendItem, invM i]
      constructor
      · rintro ⟨hi, he⟩
        exact ⟨Nat.lt_succ_of_lt hi, he⟩
      · rintro ⟨hi, he⟩
        rcases Nat.lt_succ_iff_lt_or_eq.mp hi with hi' | rfl
        · exact ⟨hi', he⟩
        · exact absurd he hneE
    · intro i j
      rw [underMask_appendItem, invU i j]
      constructor
      · rintro ⟨hi, he, hji, hrj⟩
        exact ⟨Nat.lt_succ_of_lt hi, he, hji, hrj⟩
      · rintro ⟨hi, he, hji, hrj⟩
        rcases Nat.lt_succ_iff_lt_or_eq.mp hi with hi' | rfl
        · exact ⟨hi', he, hji, hrj⟩
        · exact absurd he hneE
  · rw [if_neg hr]
    have hnr : ¬ rendersAt objs k := by
      rw [rendersAt_of objs k _ hk]
      exact hr
    refine ⟨?_, ?_, ?_⟩
    · intro j
      rw [invC j]
      constructor
      · rintro ⟨hj, hrj⟩
        exact ⟨Nat.lt_succ_of_lt hj, hrj⟩
      · rintro ⟨hj, hrj⟩
        rcases Nat.lt_succ_iff_lt_or_eq.mp hj with hj' | rfl
        · exact ⟨hj', hrj⟩
        · exact absurd hrj hnr
    · intro i
      rw [invM i]
      constructor
      · rintro ⟨hi, he⟩
        exact ⟨Nat.lt_succ_of_lt hi, he⟩
      · rintro ⟨hi, he⟩
        rcases Nat.lt_succ_iff_lt_or_eq.mp hi with hi' | rfl
        · exact ⟨hi', he⟩
        · exact absurd he hneE
    · intro i j
      rw [invU i j]
      constructor
      · rintro ⟨hi, he, hji, hrj⟩
        exact ⟨Nat.lt_succ_of_lt hi, he, hji, hrj⟩
      · rintro ⟨hi, he, hji, hrj⟩
        rcases Nat.lt_succ_iff_lt_or_eq.mp hi with hi' | rfl
        · exact ⟨hi', he, hji, hrj⟩
        · exact absurd he hneE

theorem exportInv_step (objs : List Obj) (k : ℕ) (m : Markup) (o : Obj)
    (hk : objs.get? k = some o) (inv : ExportInv objs k m) :
    ExportInv objs (k + 1) (exportStep m k o) := by
  obtain ⟨invC, invM, invU⟩ := inv
  cases o with
  | erase sz pts =>
      by_cases hlen : 2 ≤ pts.length
      · have heA : eraseAt objs k := ⟨sz, pts, hk, hlen⟩
        have hnr : ¬ rendersAt objs k := by
          rw [rendersAt_of objs k _ hk]
          simp [renders]
        have hstep : exportStep m k (.erase sz pts) =
            .wrap k pts (max 1 (orQ sz 20)) m [] := by
          simp [exportStep, wrapWithEraseMask, hlen]
        rw [hstep]
        refine ⟨?_, ?_, ?_⟩
        · intro j
          simp only [containsItem, List.any_nil, Bool.or_false]
          rw [invC j]
          constructor
          · rintro ⟨hj, hr⟩
            exact ⟨Nat.lt_succ_of_lt hj, hr⟩
          · rintro ⟨hj, hr⟩
            rcases Nat.lt_succ_iff_lt_or_eq.mp hj with hj' | rfl
            · exact ⟨hj', hr⟩
            · exact absurd hr hnr
        · intro i
          simp only [hasMask, Bool.or_eq_true, beq_iff_eq]
          rw [invM i]
          constructor
          · rintro (rfl | ⟨hi, he⟩)
            · exact ⟨Nat.lt_succ_self k, heA⟩
            · exact ⟨Nat.lt_succ_of_lt hi, he⟩
          · rintro ⟨hi, he⟩
            rcases Nat.lt_succ_iff_lt_or_eq.mp hi with hi' | rfl
            · exact Or.inr ⟨hi', he⟩
            · exact Or.inl rfl
        · intro i j
          simp only [underMask, Bool.or_eq_true, Bool.and_eq_true, beq_iff_eq]
          rw [invC j, invU i j]
          constructor
          · rintro (⟨rfl, hj, hr⟩ | ⟨hi, he, hji, hr⟩)
            · exact ⟨Nat.lt_succ_self k, heA, hj, hr⟩
            · exact ⟨Nat.lt_succ_of_lt hi, he, hji, hr⟩
          · rintro ⟨hi, he, hji, hr⟩
            rcases Nat.lt_succ_iff_lt_or_eq.mp hi with hi' | rfl
            · exact Or.inr ⟨hi', he, hji, hr⟩
            · exact Or.inl ⟨rfl, hji, hr⟩
      · have hnr : ¬ rendersAt objs k := by
          rw [rendersAt_of objs k _ hk]
          simp [renders]
        have hne : ¬ eraseAt objs k := by
          rw [eraseAt_of objs k _ hk]
          rintro ⟨sz', pts', heq, hl⟩
          cases heq
          exact hlen hl
        have hstep : exportStep m k (.erase sz pts) = m := by
          simp [exportStep, hlen]
        rw [hstep]
        refine ⟨?_, ?_, ?_⟩
        · intro j
          rw [invC j]
          constructor
          · rintro ⟨hj, hr⟩
            exact ⟨Nat.lt_succ_of_lt hj, hr⟩
          · rintro ⟨hj, hr⟩
            rcases Nat.lt_succ_iff_lt_or_eq.mp hj with hj' | rfl
            · exact ⟨hj', hr⟩
            · exact absurd hr hnr
        · intro i
          rw [invM i]
          constructor
          · rintro ⟨hi, he⟩
            exact ⟨Nat.lt_succ_of_lt hi, he⟩
          · rintro ⟨hi, he⟩
            rcases Nat.lt_succ_iff_lt_or_eq.mp hi with hi' | rfl
            · exact ⟨hi', he⟩
            · exact absurd he hne
        · intro i j
          rw [invU i j]
          constructor
          · rintro ⟨hi, he, hji, hr⟩
            exact ⟨Nat.lt_succ_of_lt hi, he, hji, hr⟩
          · rintro ⟨hi, he, hji, hr⟩
            rcases Nat.lt_succ_iff_lt_or_eq.mp hi with hi' | rfl
            · exact ⟨hi', he, hji, hr⟩
            · exact absurd he hne
  | stroke c sz pts =>
      refine exportInv_step_nonerase objs k m _ hk invC invM invU ?_ rfl
      rw [eraseAt_of objs k _ hk]
      rintro ⟨sz', pts', heq, -⟩
      cases heq
  | line c sz x1 y1 x2 y2 =>
      refine exportInv_step_nonerase objs k m _ hk invC invM invU ?_ rfl
      rw [eraseAt_of objs k _ hk]
      rintro ⟨sz', pts', heq, -⟩
      cases heq
  | arrow c sz x1 y1 x2 y2 =>
      refine exportInv_step_nonerase objs k m _ hk invC invM invU ?_ rfl
      rw [eraseAt_of objs k _ hk]
      rintro ⟨sz', pts', heq, -⟩
      cases heq
  | rect c sz x1 y1 x2 y2 rot =>
      refine exportInv_step_nonerase objs k m _ hk invC invM invU ?_ rfl
      rw [eraseAt_of objs k _ hk]
      rintro ⟨sz', pts', heq, -⟩
      cases heq
  | circle c sz x1 y1 x2 y2 rot =>
      refine exportInv_step_nonerase objs k m _ hk invC invM invU ?_ rfl
      rw [eraseAt_of objs k _ hk]
      rintro ⟨sz', pts', heq, -⟩
      cases heq
  | text x y t c fs rot =>
      refine exportInv_step_nonerase objs k m _ hk invC invM invU ?_ rfl
      rw [eraseAt_of objs k _ hk]
      rintro ⟨sz', pts', heq, -⟩
      cases heq

theorem exportInv_fold (objs : List Obj) :
    ∀ (rest : List Obj) (k : ℕ) (m : Markup),
      objs.drop k = rest → ExportInv objs k m →
      ExportInv objs objs.length
        ((List.enumFrom k rest).foldl (fun acc ko => exportStep acc ko.1 ko.2) m) := by
  intro rest
  induction rest with
  | nil =>
      intro k m hdrop inv
      simp only [List.enumFrom, List.foldl_nil]
      have hk : objs.length ≤ k := by
        have hcount := congrArg List.length hdrop
        simp only [List.length_drop, List.length_nil] at hcount
        omega
      obtain ⟨invC, invM, invU⟩ := inv
      refine ⟨?_, ?_, ?_⟩
      · intro j
        rw [invC j]
        constructor
        · rintro ⟨-, hr⟩
          exact ⟨rendersAt_lt objs j hr, hr⟩
        · rintro ⟨hj, hr⟩
          exact ⟨lt_of_lt_of_le hj hk, hr⟩
      · intro i
        rw [invM i]
        constructor
        · rintro ⟨-, he⟩
          exact ⟨eraseAt_lt objs i he, he⟩
        · rintro ⟨hi, he⟩
          exact ⟨lt_of_lt_of_le hi hk, he⟩
      · intro i j
        rw [invU i j]
        constructor
        · rintro ⟨-, he, hji, hr⟩
          exact ⟨eraseAt_lt objs i he, he, hji, hr⟩
        · rintro ⟨hi, he, hji, hr⟩
          exact ⟨lt_of_lt_of_le hi hk, he, hji, hr⟩
  | cons o rest2 ih =>
      intro k m hdrop inv
      have hget : objs.get? k = some o := by
        rw [List.get?_eq_getElem?]
        have h0 : (objs.drop k)[0]? = some o := by
          rw [hdrop]
          simp
        rwa [List.getElem?_drop, Nat.add_zero] at h0
      have hdrop2 : objs.drop (k + 1) = rest2 := by
        have hsplit : objs.drop (k + 1) = (objs.drop k).drop 1 := by
          rw [List.drop_drop, Nat.add_comm]
        rw [hsplit, hdrop]
        rfl
      simp only [List.enumFrom, List.foldl_cons]
      exact ih (k + 1) (exportStep m k o) hdrop2 (exportInv_step objs k m o hget inv)

/-- The export-loop invariant holds of the final markup. -/
theorem exportInv_total (objs : List Obj) :
    ExportInv objs objs.length (exportInk objs) := by
  have base : ExportInv objs 0 (.base []) := by
    refine ⟨?_, ?_, ?_⟩
    · intro j
      simp [containsItem]
    · intro i
      simp [hasMask]
    · intro i j
      simp [underMask]
  have h := exportInv_fold objs objs 0 (.base []) (by simp) base
  simpa [exportInk, List.enum] using h

/-! ## C3: erase masking order in the vector export -/

/-- C3: for every object sequence, every erase object with a nonempty path
(at least two points — otherwise `pathFromPoints` is empty and the source
skips the mask) obtains a mask group whose shape is its stroked path, and
that group wraps exactly the markup accumulated from objects strictly
before it: the item of every markup-producing object `j` appears in the
export, and it lies inside the mask group of the erase at index `i` iff
`j < i` — markup produced from objects after the erase stays outside that
mask, unaffected by it. -/
theorem export_erase_masking (objs : List Obj) (i j : ℕ) (sz : ℚ) (pts : List Pt)
    (oj : Obj) (hi : objs.get? i = some (.erase sz pts)) (hpts : 2 ≤ pts.length)
    (hj : objs.get? j = some oj) (hrj : renders oj = true) :
    containsItem (exportInk objs) j = true ∧
    hasMask (exportInk objs) i = true ∧
    (underMask (exportInk objs) i j = true ↔ j < i) := by
  obtain ⟨invC, invM, invU⟩ := exportInv_total objs
  have hrA : rendersAt objs j := ⟨oj, hj, hrj⟩
  have heA : eraseAt objs i := ⟨sz, pts, hi, hpts⟩
  refine ⟨(invC j).mpr ⟨rendersAt_lt objs j hrA, hrA⟩,
    (invM i).mpr ⟨eraseAt_lt objs i heA, heA⟩, ?_⟩
  constructor
  · intro hu
    exact ((invU i j).mp hu).2.2.1
  · intro hlt
    exact (invU i j).mpr ⟨eraseAt_lt objs i heA, heA, hlt, hrA⟩

/-- Witness for `export_erase_masking`: a stroke, then an erase crossing it,
then a rect drawn afterwards; the stroke (index 0) is inside the erase's
mask, the rect (index 2) renders outside it. -/
theorem export_erase_masking_witness :
    ([.stroke "#111111" 5 [⟨0, 0⟩, ⟨1, 1⟩], .erase 20 [⟨0, 0⟩, ⟨2, 2⟩],
        .rect "#ff0000" 5 0 0 1 1 0] : List Obj).get? 1 =
      some (.erase 20 [⟨0, 0⟩, ⟨2, 2⟩]) ∧
    2 ≤ ([⟨0, 0⟩, ⟨2, 2⟩] : List Pt).length ∧
    ([.stroke "#111111" 5 [⟨0, 0⟩, ⟨1, 1⟩], .erase 20 [⟨0, 0⟩, ⟨2, 2⟩],
        .rect "#ff0000" 5 0 0 1 1 0] : List Obj).get? 0 =
      some (.stroke "#111111" 5 [⟨0, 0⟩, ⟨1, 1⟩]) ∧
    renders (.stroke "#111111" 5 [⟨0, 0⟩, ⟨1, 1⟩]) = true ∧
    (containsItem (exportInk [.stroke "#111111" 5 [⟨0, 0⟩, ⟨1, 1⟩],
        .erase 20 [⟨0, 0⟩, ⟨2, 2⟩], .rect "#ff0000" 5 0 0 1 1 0]) 0 = true ∧
     hasMask (exportInk [.stroke "#111111" 5 [⟨0, 0⟩, ⟨1, 1⟩],
        .erase 20 [⟨0, 0⟩, ⟨2, 2⟩], .rect "#ff0000" 5 0 0 1 1 0]) 1 = true ∧
     (underMask (exportInk [.stroke "#111111" 5 [⟨0, 0⟩, ⟨1, 1⟩],
        .erase 20 [⟨0, 0⟩, ⟨2, 2⟩], .rect "#ff0000" 5 0 0 1 1 0]) 1 0 = true ↔ 0 < 1)) :=
  ⟨rfl, by norm_num, rfl, rfl,
   export_erase_masking _ 1 0 20 [⟨0, 0⟩, ⟨2, 2⟩] (.stroke "#111111" 5 [⟨0, 0⟩, ⟨1, 1⟩])
     rfl (by norm_num) rfl rfl⟩

end Svgboard
